import Mathlib

/-!
Verification development for the acdb backup engine
(packages `shared`, `metadata` and the `acdbackup` orchestrator).

The Go sources are shallowly embedded: pure byte-level code (the XDR
record codec, envelope header layout, hex names, slicing) is translated
literally; external cryptographic and compression primitives
(nacl/secretbox, gzip/pgzip, sha256, hmac-sha256, scrypt, the RFC3339
time formatting used by go-xdr for `time.Time`) are modelled as
parameters bundled with the contracts the sources rely on; effectful
calls (file reads, object-store requests, password prompts) are passed
in as explicit oracle values.  Go's fallible functions return a
`GoRes`, with a distinguished constructor for run-time panics of the
kind that out-of-range slicing produces.
-/

namespace Acdb

set_option maxRecDepth 16384

/-- Byte strings are lists of naturals (each byte is `< 256` in real data;
    the bound is only needed where arithmetic round-trips are proved). -/
abbrev Bytes := List Nat

/-- The `k`-byte big-endian form of `n` (mod `2^(8k)`). -/
def toBytesBE : Nat → Nat → Bytes
  | 0, _ => []
  | k + 1, n => toBytesBE k (n / 256) ++ [n % 256]

/-- Big-endian byte fold, inverse of `toBytesBE` for in-range values. -/
def fromBytesBE (l : Bytes) : Nat :=
  l.foldl (fun a b => a * 256 + b) 0

theorem toBytesBE_length (k n : Nat) : (toBytesBE k n).length = k := by
  induction k generalizing n with
  | zero => rfl
  | succ k ih => simp [toBytesBE, ih]

theorem fromBytesBE_append_singleton (l : Bytes) (b : Nat) :
    fromBytesBE (l ++ [b]) = fromBytesBE l * 256 + b := by
  simp [fromBytesBE]

theorem fromBytesBE_toBytesBE (k n : Nat) (h : n < 2 ^ (8 * k)) :
    fromBytesBE (toBytesBE k n) = n := by
  induction k generalizing n with
  | zero =>
    simp [toBytesBE, fromBytesBE]
    omega
  | succ k ih =>
    have hdiv : n / 256 < 2 ^ (8 * k) := by
      have hpow : 2 ^ (8 * (k + 1)) = 2 ^ (8 * k) * 2 ^ 8 := by
        rw [← pow_add]; ring_nf
      apply Nat.div_lt_of_lt_mul
      have h8 : (2 : Nat) ^ 8 = 256 := by norm_num
      rw [hpow, h8] at h
      omega
    rw [toBytesBE, fromBytesBE_append_singleton, ih _ hdiv]
    omega

theorem fromBytesBE_toBytesBE4 (n : Nat) (h : n < 4294967296) :
    fromBytesBE (toBytesBE 4 n) = n :=
  fromBytesBE_toBytesBE 4 n
    (by have : (2 : Nat) ^ (8 * 4) = 4294967296 := by norm_num
        omega)

theorem fromBytesBE_toBytesBE8 (n : Nat) (h : n < 18446744073709551616) :
    fromBytesBE (toBytesBE 8 n) = n :=
  fromBytesBE_toBytesBE 8 n
    (by have : (2 : Nat) ^ (8 * 8) = 18446744073709551616 := by norm_num
        omega)

/-- Read exactly `k` bytes from the front of a stream, as `io.ReadFull` does;
    `none` models the resulting IO error when the stream is too short. -/
def readN (k : Nat) (b : Bytes) : Option (Bytes × Bytes) :=
  if k ≤ b.length then some (b.take k, b.drop k) else none

theorem readN_append (k : Nat) (s r : Bytes) (h : s.length = k) :
    readN k (s ++ r) = some (s, r) := by
  subst h
  simp [readN, List.take_left, List.drop_left]

/-- XDR unsigned 32-bit integer encoding (4 bytes, big endian). -/
def encUint32 (n : Nat) : Bytes := toBytesBE 4 n

def decUint32 (b : Bytes) : Option (Nat × Bytes) :=
  (readN 4 b).map fun p => (fromBytesBE p.1, p.2)

theorem decUint32_enc (n : Nat) (r : Bytes) (h : n < 4294967296) :
    decUint32 (encUint32 n ++ r) = some (n, r) := by
  have hl : (toBytesBE 4 n).length = 4 := toBytesBE_length 4 n
  simp only [decUint32, encUint32]
  rw [readN_append 4 _ r hl]
  simp only [Option.map_some']
  rw [fromBytesBE_toBytesBE4 n h]

/-- XDR signed 32-bit integer (two's complement, big endian); this is how
    go-xdr marshals Go `int` fields. -/
def encInt32 (i : Int) : Bytes := toBytesBE 4 (i % 4294967296).toNat

def decInt32 (b : Bytes) : Option (Int × Bytes) :=
  (readN 4 b).map fun p =>
    (let u := fromBytesBE p.1
     if u < 2147483648 then (u : Int) else (u : Int) - 4294967296, p.2)

theorem decInt32_enc (i : Int) (r : Bytes)
    (hlo : -2147483648 ≤ i) (hhi : i < 2147483648) :
    decInt32 (encInt32 i ++ r) = some (i, r) := by
  have hl : (toBytesBE 4 (i % 4294967296).toNat).length = 4 :=
    toBytesBE_length 4 _
  have h0 : (0 : Int) ≤ i % 4294967296 := Int.emod_nonneg i (by norm_num)
  have h1 : i % 4294967296 < 4294967296 := Int.emod_lt_of_pos i (by norm_num)
  simp only [decInt32, encInt32]
  rw [readN_append 4 _ r hl]
  simp only [Option.map_some']
  rw [fromBytesBE_toBytesBE4 _ (by omega)]
  simp only [Option.some.injEq, Prod.mk.injEq, and_true]
  split_ifs with hc <;> omega

/-- XDR unsigned hyper (8 bytes, big endian) — Go `uint64`. -/
def encUint64 (n : Nat) : Bytes := toBytesBE 8 n

def decUint64 (b : Bytes) : Option (Nat × Bytes) :=
  (readN 8 b).map fun p => (fromBytesBE p.1, p.2)

theorem decUint64_enc (n : Nat) (r : Bytes) (h : n < 18446744073709551616) :
    decUint64 (encUint64 n ++ r) = some (n, r) := by
  have hl : (toBytesBE 8 n).length = 8 := toBytesBE_length 8 n
  simp only [decUint64, encUint64]
  rw [readN_append 8 _ r hl]
  simp only [Option.map_some']
  rw [fromBytesBE_toBytesBE8 n h]

/-- XDR signed hyper (8 bytes, two's complement) — Go `int64`. -/
def encHyper (i : Int) : Bytes := toBytesBE 8 (i % 18446744073709551616).toNat

def decHyper (b : Bytes) : Option (Int × Bytes) :=
  (readN 8 b).map fun p =>
    (let u := fromBytesBE p.1
     if u < 9223372036854775808 then (u : Int)
     else (u : Int) - 18446744073709551616, p.2)

theorem decHyper_enc (i : Int) (r : Bytes)
    (hlo : -9223372036854775808 ≤ i) (hhi : i < 9223372036854775808) :
    decHyper (encHyper i ++ r) = some (i, r) := by
  have hl : (toBytesBE 8 (i % 18446744073709551616).toNat).length = 8 :=
    toBytesBE_length 8 _
  have h0 : (0 : Int) ≤ i % 18446744073709551616 :=
    Int.emod_nonneg i (by norm_num)
  have h1 : i % 18446744073709551616 < 18446744073709551616 :=
    Int.emod_lt_of_pos i (by norm_num)
  simp only [decHyper, encHyper]
  rw [readN_append 8 _ r hl]
  simp only [Option.map_some']
  rw [fromBytesBE_toBytesBE8 _ (by omega)]
  simp only [Option.some.injEq, Prod.mk.injEq, and_true]
  split_ifs with hc <;> omega

/-- Number of XDR padding bytes after an `n`-byte opaque/string body. -/
def pad4 (n : Nat) : Nat := (4 - n % 4) % 4

/-- XDR length-prefixed string/opaque: 4-byte length, body, zero padding
    to a 4-byte boundary. -/
def encString (s : Bytes) : Bytes :=
  encUint32 s.length ++ s ++ List.replicate (pad4 s.length) 0

def decString (b : Bytes) : Option (Bytes × Bytes) := do
  let (lb, r1) ← readN 4 b
  let len := fromBytesBE lb
  let (s, r2) ← readN len r1
  let (_, r3) ← readN (pad4 len) r2
  pure (s, r3)

/-! ## Go errors, results and external primitives -/

/-- The error values the embedded functions can produce, named after the
    messages in the sources. -/
inductive GoErr where
  | couldNotDecryptBody   -- shared.NaClDecrypt: "could not decrypt body"
  | headerDecode          -- shared.NaClDecrypt: xdr decode of the envelope header failed
  | invalidCompression    -- shared.NaClDecrypt: "invalid compression: %v"
  | gunzipFailed          -- shared.NaClDecrypt: pgzip reader creation or copy failed
  | couldNotDecrypt       -- shared.KeysDecrypt: "could not decrypt"
  | couldNotUnmarshal     -- shared.KeysDecrypt: "could not unmarshal"
  | notIdentical          -- acdbackup.verifySecrets: "remote secrets not identical to local secrets"
  | remoteNotFound        -- acdbackup.downloadPayload: "remote object not found"
  | ioErr                 -- a generic I/O failure delivered by an oracle
  deriving DecidableEq, Repr

/-- Result of a Go function: a value, an error return, or a run-time panic
    (out-of-range slicing). -/
inductive GoRes (α : Type) where
  | ok (a : α)
  | fail (e : GoErr)
  | panicked
  deriving DecidableEq, Repr

/-- nacl/secretbox, abstracted: an authenticated symmetric seal with the two
    contracts the repository relies on (round trip under the right key,
    authentication failure under any other key). -/
structure SecretBox where
  sbSeal : Bytes → Bytes → Bytes → Bytes                -- key nonce message
  sbOpen : Bytes → Bytes → Bytes → Option Bytes       -- key nonce box
  open_seal : ∀ k n m, sbOpen k n (sbSeal k n m) = some m
  open_wrong_key : ∀ k k' n m, k ≠ k' → sbOpen k' n (sbSeal k n m) = none

/-- gzip/pgzip, abstracted: the plain and the parallel compressor produce
    standard gzip data, and the (always parallel) reader inverts both. -/
structure GzipCodec where
  gzipC : Bytes → Bytes
  pgzipC : Bytes → Bytes
  gunzip : Bytes → Option Bytes
  gunzip_gzip : ∀ b, gunzip (gzipC b) = some b
  gunzip_pgzip : ∀ b, gunzip (pgzipC b) = some b

/-- SHA-256 and HMAC-SHA256 (goutil.FileSHA256 / goutil.FileHMACSHA256),
    abstracted to digest functions of the file bytes with 32-byte output. -/
structure HashModel where
  sha256 : Bytes → Bytes
  hmacSHA256 : Bytes → Bytes → Bytes                  -- key message
  sha256_length : ∀ b, (sha256 b).length = 32
  hmac_length : ∀ k b, (hmacSHA256 k b).length = 32

/-- scrypt.Key, abstracted: password salt N r p dklen ↦ derived key. -/
abbrev ScryptFn := Bytes → Bytes → Nat → Nat → Nat → Nat → Bytes

/-- Go `copy` into a freshly zeroed `k`-byte array. -/
def copyFixed (k : Nat) (src : Bytes) : Bytes :=
  src.take k ++ List.replicate (k - src.length) 0

/-! ## shared: envelope header and crypto envelope -/

def KeySize : Nat := 32
def NonceSize : Nat := 24
def sharedVersion : Int := 1

def CompNone : Bytes := [110, 111, 110, 101]   -- "none"
def CompGZIP : Bytes := [103, 122, 105, 112]   -- "gzip"

/-- shared.Header — the per-payload envelope header. -/
structure Header where
  Version : Int
  Compression : Bytes
  Size : Nat
  Digest : Bytes
  MimeType : Bytes
  deriving DecidableEq, Repr

/-- go-xdr marshalling of shared.Header, fields in declaration order. -/
def encHeader (h : Header) : Bytes :=
  encInt32 h.Version ++ h.Compression ++ encUint64 h.Size ++ h.Digest
    ++ encString h.MimeType

def decHeader (b : Bytes) : Option (Header × Bytes) := do
  let (v, r1) ← decInt32 b
  let (c, r2) ← readN 4 r1
  let (sz, r3) ← decUint64 r2
  let (dg, r4) ← readN 32 r3
  let (mt, r5) ← decString r4
  pure (⟨v, c, sz, dg, mt⟩, r5)

def HeaderWF (h : Header) : Prop :=
  -2147483648 ≤ h.Version ∧ h.Version < 2147483648 ∧
  h.Compression.length = 4 ∧ h.Size < 18446744073709551616 ∧
  h.Digest.length = 32 ∧ h.MimeType.length < 4294967296

/-- The header FileNaClEncrypt builds for a payload: version 1, gzip tag
    exactly when both the flag and the probe say compress, size and SHA-256
    digest of the plaintext, probed MIME type. -/
def fileHeaderOf (H : HashModel) (probe : Bytes → Bytes × Bool)
    (fileBytes : Bytes) (compress : Bool) : Header :=
  { Version := sharedVersion
    Compression := if compress && (probe fileBytes).2 then CompGZIP else CompNone
    Size := fileBytes.length
    Digest := H.sha256 fileBytes
    MimeType := (probe fileBytes).1 }

/-- shared.FileNaClEncrypt over the file's bytes.  `probe` stands for
    goutil.FileCompressible (MIME type and compressibility of the content);
    the fresh random nonce is passed in. -/
def FileNaClEncrypt (SB : SecretBox) (GZ : GzipCodec) (H : HashModel)
    (probe : Bytes → Bytes × Bool) (fileBytes : Bytes) (compress : Bool)
    (key nonce : Bytes) : Bytes :=
  let comp := compress && (probe fileBytes).2
  let content :=
    if comp then
      -- per klauspost/pgzip, use pgzip for payloads over 1 MiB
      if fileBytes.length > 1048576 then GZ.pgzipC fileBytes
      else GZ.gzipC fileBytes
    else fileBytes
  nonce ++ SB.sbSeal key nonce
    (encHeader (fileHeaderOf H probe fileBytes compress) ++ content)

/-- shared.NaClDecrypt.  `body[:NonceSize]` panics when the input is
    shorter than the nonce. -/
def NaClDecrypt (SB : SecretBox) (GZ : GzipCodec) (body : Bytes)
    (key : Bytes) : GoRes (Header × Bytes) :=
  if body.length < NonceSize then .panicked
  else
    let nonce := body.take NonceSize
    match SB.sbOpen key nonce (body.drop NonceSize) with
    | none => .fail .couldNotDecryptBody
    | some payload =>
      match decHeader payload with
      | none => .fail .headerDecode
      | some (mh, rest) =>
        if mh.Compression = CompNone then .ok (mh, rest)
        else if mh.Compression = CompGZIP then
          match GZ.gunzip rest with
          | none => .fail .gunzipFailed
          | some cleartext => .ok (mh, cleartext)
        else .fail .invalidCompression

/-! ## shared: key bundle wrap and unwrap -/

/-- shared.Keys — the three 32-byte keys. -/
structure Keys where
  MD : Bytes
  Data : Bytes
  Dedup : Bytes
  deriving DecidableEq, Repr

def KeysWF (k : Keys) : Prop :=
  k.MD.length = 32 ∧ k.Data.length = 32 ∧ k.Dedup.length = 32

/-- go-xdr marshalling of shared.Keys: three fixed 32-byte opaques. -/
def encKeys (k : Keys) : Bytes := k.MD ++ k.Data ++ k.Dedup

/-- go-xdr unmarshalling of shared.Keys (trailing bytes are not rejected). -/
def decKeys (b : Bytes) : Option Keys := do
  let (md, r1) ← readN 32 b
  let (da, r2) ← readN 32 r1
  let (dd, _) ← readN 32 r2
  pure ⟨md, da, dd⟩

/-- shared.Keys.Encrypt: blob layout [salt][nonce][encrypted keys], wrap key
    derived with scrypt(password, salt, N, r, p, KeySize). -/
def KeysEncrypt (SB : SecretBox) (scrypt : ScryptFn) (k : Keys)
    (password : Bytes) (N r p : Nat) (salt nonce : Bytes) : Bytes :=
  let dk := scrypt password salt N r p KeySize
  let key := copyFixed KeySize dk
  salt ++ nonce ++ SB.sbSeal key nonce (encKeys k)

/-- shared.KeysDecrypt.  `blob[0:KeySize]` and
    `blob[KeySize:KeySize+NonceSize]` panic on inputs shorter than
    salt plus nonce. -/
def KeysDecrypt (SB : SecretBox) (scrypt : ScryptFn) (password : Bytes)
    (N r p : Nat) (blob : Bytes) : GoRes Keys :=
  if blob.length < KeySize + NonceSize then .panicked
  else
    let salt := blob.take KeySize
    let nonce := (blob.drop KeySize).take NonceSize
    let dk := scrypt password salt N r p KeySize
    let key := copyFixed KeySize dk
    match SB.sbOpen key nonce (blob.drop (KeySize + NonceSize)) with
    | none => .fail .couldNotDecrypt
    | some ksXDR =>
      match decKeys ksXDR with
      | none => .fail .couldNotUnmarshal
      | some k => .ok k

theorem decString_enc (s r : Bytes) (h : s.length < 4294967296) :
    decString (encString s ++ r) = some (s, r) := by
  have hl : (toBytesBE 4 s.length).length = 4 := toBytesBE_length 4 _
  have hpl : (List.replicate (pad4 s.length) (0 : Nat)).length = pad4 s.length :=
    List.length_replicate _ _
  simp only [decString, encString, encUint32, List.append_assoc]
  rw [readN_append 4 _ _ hl]
  simp only [Option.bind_eq_bind, Option.some_bind]
  rw [fromBytesBE_toBytesBE4 _ h]
  rw [readN_append s.length s _ rfl]
  simp only [Option.some_bind]
  rw [readN_append (pad4 s.length) _ r hpl]
  simp


/-! ## metadata: manifest records and stream -/

def metadataVersion : Int := 1

def TypeDir : Bytes := [100, 105, 114, 0]       -- "dir\x00"
def TypeSymlink : Bytes := [115, 121, 109, 108] -- "syml"
def TypeFile : Bytes := [102, 105, 108, 101]    -- "file"

/-- go-xdr marshals `time.Time` as an RFC3339Nano string; the format/parse
    pair is abstracted to an injective byte-string rendering. -/
structure TimeCodec (T : Type) where
  fmt : T → Bytes
  parse : Bytes → Option T
  parse_fmt : ∀ t, parse (fmt t) = some t

/-- metadata.Dir. -/
structure MDir (T : Type) where
  Name : Bytes
  Mode : Nat        -- os.FileMode (uint32)
  Owner : Int       -- Go int, marshalled as int32
  Group : Int
  Modified : T
  deriving DecidableEq

/-- metadata.Symlink. -/
structure MSymlink where
  Name : Bytes
  Link : Bytes
  deriving DecidableEq

/-- metadata.File. -/
structure MFile (T : Type) where
  Name : Bytes
  Mode : Nat
  Owner : Int
  Group : Int
  Size : Int        -- int64
  Modified : T
  MimeType : Bytes
  Digest : Bytes    -- payload digest AND external pointer
  deriving DecidableEq

/-- The dynamic value produced by MetadataDecoder.Next. -/
inductive Entry (T : Type) where
  | dir (d : MDir T)
  | syml (s : MSymlink)
  | file (f : MFile T)
  deriving DecidableEq

def encDir (TC : TimeCodec T) (d : MDir T) : Bytes :=
  encString d.Name ++ encUint32 d.Mode ++ encInt32 d.Owner ++ encInt32 d.Group
    ++ encString (TC.fmt d.Modified)

def decDir (TC : TimeCodec T) (b : Bytes) : Option (MDir T × Bytes) := do
  let (nm, r1) ← decString b
  let (md, r2) ← decUint32 r1
  let (ow, r3) ← decInt32 r2
  let (gr, r4) ← decInt32 r3
  let (ts, r5) ← decString r4
  match TC.parse ts with
  | none => none
  | some t => pure (⟨nm, md, ow, gr, t⟩, r5)

def encSymlink (s : MSymlink) : Bytes := encString s.Name ++ encString s.Link

def decSymlink (b : Bytes) : Option (MSymlink × Bytes) := do
  let (nm, r1) ← decString b
  let (lk, r2) ← decString r1
  pure (⟨nm, lk⟩, r2)

def encFile (TC : TimeCodec T) (f : MFile T) : Bytes :=
  encString f.Name ++ encUint32 f.Mode ++ encInt32 f.Owner ++ encInt32 f.Group
    ++ encHyper f.Size ++ encString (TC.fmt f.Modified) ++ encString f.MimeType
    ++ f.Digest

def decFile (TC : TimeCodec T) (b : Bytes) : Option (MFile T × Bytes) := do
  let (nm, r1) ← decString b
  let (md, r2) ← decUint32 r1
  let (ow, r3) ← decInt32 r2
  let (gr, r4) ← decInt32 r3
  let (sz, r5) ← decHyper r4
  let (ts, r6) ← decString r5
  let (mt, r7) ← decString r6
  let (dg, r8) ← readN 32 r7
  match TC.parse ts with
  | none => none
  | some t => pure (⟨nm, md, ow, gr, sz, t, mt, dg⟩, r8)

/-- One manifest record: 4-byte type tag, then the record body. -/
def encEntry (TC : TimeCodec T) : Entry T → Bytes
  | .dir d => TypeDir ++ encDir TC d
  | .syml s => TypeSymlink ++ encSymlink s
  | .file f => TypeFile ++ encFile TC f

def encEntries (TC : TimeCodec T) (es : List (Entry T)) : Bytes :=
  (es.map (encEntry TC)).flatten

/-- The ranges a record's fields must lie in for its go-xdr byte form to be
    lossless (they hold for every record the Go encoder actually writes). -/
def EntryWF (TC : TimeCodec T) : Entry T → Prop
  | .dir d => d.Name.length < 4294967296 ∧ d.Mode < 4294967296 ∧
      -2147483648 ≤ d.Owner ∧ d.Owner < 2147483648 ∧
      -2147483648 ≤ d.Group ∧ d.Group < 2147483648 ∧
      (TC.fmt d.Modified).length < 4294967296
  | .syml s => s.Name.length < 4294967296 ∧ s.Link.length < 4294967296
  | .file f => f.Name.length < 4294967296 ∧ f.Mode < 4294967296 ∧
      -2147483648 ≤ f.Owner ∧ f.Owner < 2147483648 ∧
      -2147483648 ≤ f.Group ∧ f.Group < 2147483648 ∧
      -9223372036854775808 ≤ f.Size ∧ f.Size < 9223372036854775808 ∧
      (TC.fmt f.Modified).length < 4294967296 ∧
      f.MimeType.length < 4294967296 ∧ f.Digest.length = 32

/-- metadata.Header. -/
structure MDHeader where
  Version : Int
  Compression : Bytes
  deriving DecidableEq

def encMDHeader (h : MDHeader) : Bytes := encInt32 h.Version ++ h.Compression

def decMDHeader (b : Bytes) : Option (MDHeader × Bytes) := do
  let (v, r1) ← decInt32 b
  let (c, r2) ← readN 4 r1
  pure (⟨v, c⟩, r2)

/-- The body sink under the manifest records: either a bufio.Writer or a
    gzip.Writer interposed over the output.  `flushed` is what has reached
    the underlying stream, `pending` what is still buffered; for gzip,
    `closed` records whether Close wrote the member footer. -/
inductive MBody where
  | raw (flushed : Bytes) (pending : Bytes)
  | gz (flushed : Bytes) (pending : Bytes) (closed : Bool)
  deriving DecidableEq

def bodyInit (compress : Bool) : MBody :=
  if compress then .gz [] [] false else .raw [] []

def bodyWrite : MBody → Bytes → MBody
  | .raw f p, b => .raw f (p ++ b)
  | .gz f p c, b => .gz f (p ++ b) c

/-- MetadataEncoder.Flush calls the sink's Flush: the buffered data is
    drained (for gzip, a sync flush), but `Close` — which alone writes the
    gzip footer — is never called anywhere in the repository. -/
def bodyFlush : MBody → MBody
  | .raw f p => .raw (f ++ p) []
  | .gz f p c => .gz (f ++ p) [] c

/-- The decompressed bytes a reader of the sink's output can decode.  After
    a sync flush all written data is available whether or not the footer was
    written; the footer only decides the error kind at end of stream. -/
def bodyReadable : MBody → Bytes
  | .raw f _ => f
  | .gz f _ _ => f

/-- io.EOF (true) versus io.ErrUnexpectedEOF (false) at end of stream. -/
def bodyEOFClean : MBody → Bool
  | .raw _ _ => true
  | .gz _ _ c => c

/-- Whether the gzip member footer has been completed (vacuously true for an
    uncompressed body). -/
def gzFooterComplete : MBody → Bool
  | .raw _ _ => true
  | .gz _ _ c => c

structure MStream where
  header : Bytes
  body : MBody
  deriving DecidableEq

/-- metadata.NewEncoder + the entry writes + MetadataEncoder.Flush: the
    header goes to the raw output, the records through the interposed sink,
    and the final Flush drains it (without closing it). -/
def encodeManifest (TC : TimeCodec T) (es : List (Entry T))
    (compress : Bool) : MStream :=
  { header := encMDHeader ⟨metadataVersion,
      if compress then CompGZIP else CompNone⟩
    body := bodyFlush (es.foldl (fun b e => bodyWrite b (encEntry TC e))
      (bodyInit compress)) }

inductive MDErr where
  | errVersion | errCompression | errType
  | errTypeDir | errTypeSymlink | errTypeFile
  | errHeader | errBadStream
  deriving DecidableEq, Repr

/-- MetadataDecoder.Next.  `.ok none` is the clean end of stream: the
    IsEOF test accepts both io.EOF and io.ErrUnexpectedEOF from the tag
    read, so fewer than 4 remaining bytes end the stream whether or not the
    gzip footer was there. -/
def decNext (TC : TimeCodec T) (b : Bytes) :
    Except MDErr (Option (Entry T × Bytes)) :=
  match readN 4 b with
  | none => .ok none
  | some (t, r) =>
    if t = TypeDir then
      match decDir TC r with
      | none => .error .errTypeDir
      | some (d, rest) => .ok (some (.dir d, rest))
    else if t = TypeSymlink then
      match decSymlink r with
      | none => .error .errTypeSymlink
      | some (s, rest) => .ok (some (.syml s, rest))
    else if t = TypeFile then
      match decFile TC r with
      | none => .error .errTypeFile
      | some (f, rest) => .ok (some (.file f, rest))
    else .error .errType

/-- The reader's Next loop, fuelled (each record consumes at least the
    4-byte tag, so `length + 1` fuel always suffices). -/
def decEntriesFuel (TC : TimeCodec T) : Nat → Bytes →
    Except MDErr (List (Entry T))
  | 0, _ => .error .errType
  | fuel + 1, b =>
    match decNext TC b with
    | .error e => .error e
    | .ok none => .ok []
    | .ok (some (e, rest)) =>
      match decEntriesFuel TC fuel rest with
      | .error e2 => .error e2
      | .ok es => .ok (e :: es)

/-- metadata.NewDecoder + the Next loop over a whole stream. -/
def decodeManifest (TC : TimeCodec T) (s : MStream) :
    Except MDErr (List (Entry T)) :=
  match decMDHeader s.header with
  | none => .error .errHeader
  | some (h, _) =>
    if h.Version ≠ metadataVersion then .error .errVersion
    else if h.Compression = CompNone then
      match s.body with
      | .raw f _ => decEntriesFuel TC (f.length + 1) f
      | .gz _ _ _ => .error .errBadStream  -- raw xdr over gzip bytes: garbage
    else if h.Compression = CompGZIP then
      match s.body with
      | .gz f _ _ => decEntriesFuel TC (f.length + 1) f
      | .raw _ _ => .error .errBadStream   -- pgzip.NewReader fails: bad magic
    else .error .errCompression

/-! ## acdbackup: hex names, walk, extract, secrets -/

/-- encoding/hex lowercase digits. -/
def hexDigit (n : Nat) : Nat := if n < 10 then 48 + n else 87 + n

/-- hex.EncodeToString: lowercase hex, two digits per byte. -/
def hexEncode (b : Bytes) : Bytes :=
  (b.map fun x => [hexDigit (x / 16), hexDigit (x % 16)]).flatten

/-- The all-zero digest metadata.File carries for empty files. -/
def zeroDigest : Bytes := List.replicate 32 0

/-- os.FileMode type bits (bit positions of the Go constants). -/
def ModeDir : Nat := 2 ^ 31
def ModeSymlink : Nat := 2 ^ 27
def ModeDevice : Nat := 2 ^ 26
def ModeNamedPipe : Nat := 2 ^ 25
def ModeSocket : Nat := 2 ^ 24
def ModeCharDevice : Nat := 2 ^ 21
def ModeIrregular : Nat := 2 ^ 19

/-- os.ModeType: the union of all type bits (distinct powers of two). -/
def ModeType : Nat :=
  ModeDir + ModeSymlink + ModeNamedPipe + ModeSocket + ModeDevice
    + ModeCharDevice + ModeIrregular

/-- The os.FileInfo fields the walk reads. -/
structure FileInfo (T : Type) where
  mode : Nat     -- info.Mode()
  size : Int     -- info.Size()
  uid : Nat      -- stat.Uid
  gid : Nat      -- stat.Gid
  mtime : T      -- info.ModTime()
  deriving DecidableEq

/-- MetadataEncoder.Dir's record for a node. -/
def dirEntryOf (pathB : Bytes) (fi : FileInfo T) : MDir T :=
  ⟨pathB, fi.mode, fi.uid, fi.gid, fi.mtime⟩

/-- MetadataEncoder.File's record for a node. -/
def fileEntryOf (pathB : Bytes) (fi : FileInfo T) (mime digest : Bytes) :
    MFile T :=
  ⟨pathB, fi.mode, fi.uid, fi.gid, fi.size, fi.mtime, mime, digest⟩

/-- Outcome of acd.Client.UploadJSON as the walk inspects it:
    success, an *acd.CombinedError with an HTTP status, or any other error. -/
inductive UploadRes where
  | okAsset
  | combined (status : Nat)
  | plainErr
  deriving DecidableEq, Repr

/-- The effectful per-file calls the walk makes, as oracle outcomes:
    goutil.FileHMACSHA256, shared.FileNaClEncrypt, goutil.FileCompressible,
    filepath.EvalSymlinks (inside MetadataEncoder.Symlink), UploadJSON. -/
structure WalkOracle where
  fingerprint : Except GoErr Bytes
  sealedPayload : Except GoErr Bytes
  mimeProbe : Except GoErr (Bytes × Bool)
  link : Except GoErr Bytes
  upload : UploadRes

/-- What one walk call did: records appended to the manifest stream, upload
    attempts (remote name, payload), whether a warning line was printed, and
    walk's return value (`none` = nil, continue the walk). -/
structure WalkRes (T : Type) where
  entries : List (Entry T)
  uploads : List (Bytes × Bytes)
  warned : Bool
  ret : Option GoErr
  deriving DecidableEq

/-- The tail of acdbackup.walk after the type switch: if a digest was set,
    upload under the digest's lowercase hex name; a CombinedError with
    StatusConflict (409) is dedup and not an error; any other error prints a
    message and the walk continues. -/
def walkFinish (O : WalkOracle) (entries : List (Entry T))
    (digest : Option Bytes) (payload : Bytes) : WalkRes T :=
  match digest with
  | none => ⟨entries, [], false, none⟩
  | some dg =>
    let nm := hexEncode dg
    match O.upload with
    | .okAsset => ⟨entries, [(nm, payload)], false, none⟩
    | .combined status =>
      if status = 409 then ⟨entries, [(nm, payload)], false, none⟩
      else ⟨entries, [(nm, payload)], true, none⟩
    | .plainErr => ⟨entries, [(nm, payload)], true, none⟩

/-- acdbackup.walk.  The in-memory record encoders are total here, so the
    per-file failures enter through the oracle.  In the regular-file case
    `mime, _, err := goutil.FileCompressible(path)` declares a NEW `err`
    inside the switch case, shadowing the outer one: a MIME-probe failure
    breaks out of the switch with the outer `err` still nil, so the skip
    test after the switch does not fire — no entry is written and no
    warning printed, yet the upload still runs. -/
def walk (O : WalkOracle) (pathB : Bytes) (info : FileInfo T)
    (errIn : Bool) : WalkRes T :=
  if errIn then ⟨[], [], true, none⟩
  else if info.mode &&& ModeDir = ModeDir then
    walkFinish O [.dir (dirEntryOf pathB info)] none []
  else if info.mode &&& ModeSymlink = ModeSymlink then
    match O.link with
    | .error _ => ⟨[], [], true, none⟩   -- "skipping %v: %v"
    | .ok l => walkFinish O [.syml ⟨pathB, l⟩] none []
  else if info.mode &&& ModeType = 0 ∧ info.size = 0 then
    walkFinish O [.file (fileEntryOf pathB info [] zeroDigest)] none []
  else if info.mode &&& ModeType = 0 then
    match O.fingerprint with
    | .error _ => ⟨[], [], true, none⟩   -- "skipping %v: %v"
    | .ok dg =>
      match O.sealedPayload with
      | .error _ => ⟨[], [], true, none⟩ -- "skipping %v: %v"
      | .ok payload =>
        match O.mimeProbe with
        | .error _ => walkFinish O [] (some dg) payload  -- shadowed err
        | .ok pr =>
          walkFinish O [.file (fileEntryOf pathB info pr.1 dg)] (some dg)
            payload
  else ⟨[], [], true, none⟩              -- "skipping %v: unsuported file type"

/-- Mode constants from the acdbackup const block (iota runs over the
    string constants and debugApp first). -/
def modeCreate : Nat := 4
def modeExtract : Nat := 5
def modeList : Nat := 6

/-- The string "/data/" as bytes. -/
def dataDirStr : Bytes := [47, 100, 97, 116, 97, 47]

/-- The remote path acdbackup.downloadPayload resolves for a digest. -/
def dataPathOf (id : Bytes) : Bytes := dataDirStr ++ hexEncode id

/-- acdbackup.downloadPayload, over an abstract object store mapping a
    path to the downloaded bytes.  The decrypted envelope header — with its
    size and digest fields — is discarded (`_, payload, err :=`); the
    payload is written to a temp file and renamed with no further check. -/
def downloadPayload (SB : SecretBox) (GZ : GzipCodec)
    (store : Bytes → Option Bytes) (key id : Bytes) : GoRes Bytes :=
  match store (dataPathOf id) with
  | none => .fail .remoteNotFound
  | some body =>
    match NaClDecrypt SB GZ body key with
    | .panicked => .panicked
    | .fail e => .fail e
    | .ok p => .ok p.2

/-- What acdbackup.extract did with a File entry. -/
inductive ExtractAction where
  | createdEmpty
  | download (remotePath : Bytes) (result : GoRes Bytes)
  deriving DecidableEq

/-- acdbackup.extract's switch: the create-empty-file arm fires exactly for
    `a.mode == modeExtract && e.Size == 0`; every other File entry goes to
    downloadPayload with the entry's digest, whatever the digest is. -/
def extractFile (SB : SecretBox) (GZ : GzipCodec)
    (store : Bytes → Option Bytes) (key : Bytes) (mode : Nat)
    (e : MFile T) : ExtractAction :=
  if mode = modeExtract ∧ e.Size = 0 then .createdEmpty
  else .download (dataPathOf e.Digest)
    (downloadPayload SB GZ store key e.Digest)

/-- acdbackup.verifySecrets: decrypt the remote bundle with the scrypt
    parameters of the call site (32768, 16, 2) and compare all three keys
    byte for byte against the local bundle. -/
def verifySecrets (SB : SecretBox) (scrypt : ScryptFn) (localKeys : Keys)
    (p blob : Bytes) : GoRes Unit :=
  match KeysDecrypt SB scrypt p 32768 16 2 blob with
  | .panicked => .panicked
  | .fail e => .fail e
  | .ok kk =>
    if kk.MD = localKeys.MD ∧ kk.Data = localKeys.Data
        ∧ kk.Dedup = localKeys.Dedup then .ok ()
    else .fail .notIdentical

/-- Outcome of acdbackup.downloadSecrets after the secrets blob was
    downloaded. -/
inductive DSOutcome where
  | success (persistedPassword : Option Bytes)
  | fatal (e : GoErr)
  | crashed
  | awaitingPrompt   -- the modelled prompt inputs ran out; the loop would prompt again
  deriving DecidableEq

/-- acdbackup.downloadSecrets' password loop.  `pwFile` is the local
    password file (shared.ReadPassword), `prompts` the successive
    interactive inputs; the second component counts the
    "invalid password: %v" lines printed. -/
def downloadSecretsLoop (SB : SecretBox) (scrypt : ScryptFn)
    (localKeys : Keys) (blob : Bytes) (pwFile : Option Bytes) :
    List Bytes → Nat → DSOutcome × Nat
  | prompts, printed =>
    match pwFile with
    | some p =>
      -- ReadPassword succeeded: break, then return verifySecrets(p, blob)
      match verifySecrets SB scrypt localKeys p blob with
      | .ok _ => (.success none, printed)
      | .fail e => (.fatal e, printed)
      | .panicked => (.crashed, printed)
    | none =>
      match prompts with
      | [] => (.awaitingPrompt, printed)
      | p :: rest =>
        match verifySecrets SB scrypt localKeys p blob with
        | .ok _ => (.success (some p), printed)  -- return WritePassword(p)
        | .fail _ =>
          -- "invalid password: %v" — whatever the error was — and retry
          downloadSecretsLoop SB scrypt localKeys blob none rest (printed + 1)
        | .panicked => (.crashed, printed)

def downloadSecrets (SB : SecretBox) (scrypt : ScryptFn) (localKeys : Keys)
    (blob : Bytes) (pwFile : Option Bytes) (prompts : List Bytes) :
    DSOutcome × Nat :=
  downloadSecretsLoop SB scrypt localKeys blob pwFile prompts 0

/-! ## Supporting lemmas for the codecs -/

theorem copyFixed_length (k : Nat) (src : Bytes) :
    (copyFixed k src).length = k := by
  simp only [copyFixed, List.length_append, List.length_take,
    List.length_replicate]
  omega

theorem decHeader_enc (h : Header) (r : Bytes) (hwf : HeaderWF h) :
    decHeader (encHeader h ++ r) = some (h, r) := by
  obtain ⟨h1, h2, h3, h4, h5, h6⟩ := hwf
  simp only [decHeader, encHeader, List.append_assoc]
  rw [decInt32_enc _ _ h1 h2]
  simp only [Option.bind_eq_bind, Option.some_bind]
  rw [readN_append 4 _ _ h3]
  simp only [Option.some_bind]
  rw [decUint64_enc _ _ h4]
  simp only [Option.some_bind]
  rw [readN_append 32 _ _ h5]
  simp only [Option.some_bind]
  rw [decString_enc _ _ h6]
  simp only [Option.some_bind]
  rfl

theorem readN_exact (k : Nat) (s : Bytes) (h : s.length = k) :
    readN k s = some (s, []) := by
  have := readN_append k s [] h
  simpa using this

theorem decKeys_enc (k : Keys) (hwf : KeysWF k) :
    decKeys (encKeys k) = some k := by
  obtain ⟨h1, h2, h3⟩ := hwf
  simp only [decKeys, encKeys, List.append_assoc]
  rw [readN_append 32 _ _ h1]
  simp only [Option.bind_eq_bind, Option.some_bind]
  rw [readN_append 32 _ _ h2]
  simp only [Option.some_bind]
  rw [readN_exact 32 _ h3]
  simp only [Option.some_bind]
  rfl

/-! ## Concrete instantiations of the abstract primitives

A simple authenticated-container model used to instantiate the abstract
`SecretBox`/`GzipCodec`/`HashModel`/`ScryptFn`/`TimeCodec` parameters on
concrete inputs: the box is the unary-length-framed key and nonce followed
by the message, so opening recovers and checks exactly the key and nonce it
was sealed with. -/

def countOnes : Bytes → Nat
  | [] => 0
  | x :: xs => if x = 1 then countOnes xs + 1 else 0

def onesFrame (s : Bytes) : Bytes := List.replicate s.length 1 ++ 0 :: s

def unframe (b : Bytes) : Option (Bytes × Bytes) :=
  let n := countOnes b
  match b.drop n with
  | 0 :: rest => readN n rest
  | _ => none

theorem countOnes_frame (n : Nat) (t : Bytes) :
    countOnes (List.replicate n 1 ++ 0 :: t) = n := by
  induction n with
  | zero => simp [countOnes]
  | succ n ih => simp [List.replicate_succ, countOnes, ih]

theorem countOnes_replicate (n : Nat) :
    countOnes (List.replicate n 1) = n := by
  induction n with
  | zero => simp [countOnes]
  | succ n ih => simp [List.replicate_succ, countOnes, ih]

theorem unframe_frame (s r : Bytes) :
    unframe (onesFrame s ++ r) = some (s, r) := by
  have hshape : onesFrame s ++ r
      = List.replicate s.length 1 ++ 0 :: (s ++ r) := by
    simp [onesFrame]
  rw [hshape]
  have hl : (List.replicate s.length (1 : Nat)).length = s.length := by simp
  simp only [unframe, countOnes_frame, List.drop_left' hl]
  exact readN_append s.length s r rfl

def toySB : SecretBox where
  sbSeal := fun k n m => onesFrame k ++ (onesFrame n ++ m)
  sbOpen := fun k n c =>
    match unframe c with
    | none => none
    | some (k0, r) =>
      if k0 = k then
        match unframe r with
        | none => none
        | some (n0, m) => if n0 = n then some m else none
      else none
  open_seal := by
    intro k n m
    simp [unframe_frame]
  open_wrong_key := by
    intro k k' n m hk
    simp [unframe_frame, hk]

def toyGZ : GzipCodec where
  gzipC := fun b => b
  pgzipC := fun b => b
  gunzip := fun b => some b
  gunzip_gzip := fun _ => rfl
  gunzip_pgzip := fun _ => rfl

def toyHash : HashModel where
  sha256 := fun _ => zeroDigest
  hmacSHA256 := fun k b => copyFixed 32 (k ++ b)
  sha256_length := fun _ => by simp [zeroDigest]
  hmac_length := fun _ _ => copyFixed_length 32 _

def toyScrypt : ScryptFn := fun pw salt _ _ _ dklen => copyFixed dklen (pw ++ salt)

def toyTime : TimeCodec Nat where
  fmt := fun t => List.replicate t 1
  parse := fun b => some (countOnes b)
  parse_fmt := fun t => by simp [countOnes_replicate]

def toyProbe : Bytes → Bytes × Bool := fun _ => ([], true)

/-! ## Claim theorems -/

/-- C1: for every byte sequence, key and compress flag, opening the
    envelope produced by seal_file (FileNaClEncrypt) with the same key
    returns the original bytes together with a header whose size field is
    the byte count and whose digest field is SHA-256 of the plaintext, in
    both the compressed and the uncompressed branch, including payloads
    above the 1 MiB parallel-gzip threshold. -/
theorem seal_open_roundtrip (SB : SecretBox) (GZ : GzipCodec) (H : HashModel)
    (probe : Bytes → Bytes × Bool) (B key nonce : Bytes) (compress : Bool)
    (hn : nonce.length = NonceSize)
    (hsz : B.length < 18446744073709551616)
    (hm : (probe B).1.length < 4294967296) :
    ∃ hdr : Header,
      NaClDecrypt SB GZ (FileNaClEncrypt SB GZ H probe B compress key nonce)
          key = .ok (hdr, B)
      ∧ hdr.Size = B.length ∧ hdr.Digest = H.sha256 B := by
  refine ⟨fileHeaderOf H probe B compress, ?_, rfl, rfl⟩
  have hwf : HeaderWF (fileHeaderOf H probe B compress) := by
    refine ⟨by norm_num [fileHeaderOf, sharedVersion],
      by norm_num [fileHeaderOf, sharedVersion], ?_, hsz,
      H.sha256_length B, hm⟩
    by_cases hc : compress && (probe B).2 <;>
      simp [fileHeaderOf, hc, CompGZIP, CompNone]
  have hn24 : nonce.length = 24 := by simpa [NonceSize] using hn
  simp only [FileNaClEncrypt, NaClDecrypt]
  have hlen : ∀ t : Bytes, ¬ ((nonce ++ t).length < NonceSize) := by
    intro t
    simp [List.length_append, hn24, NonceSize]
  rw [if_neg (hlen _)]
  have htake : ∀ t : Bytes, (nonce ++ t).take NonceSize = nonce :=
    fun t => List.take_left' (by simpa [NonceSize] using hn)
  have hdrop : ∀ t : Bytes, (nonce ++ t).drop NonceSize = t :=
    fun t => List.drop_left' (by simpa [NonceSize] using hn)
  simp only [htake, hdrop, SB.open_seal, decHeader_enc _ _ hwf]
  have hne : ¬ ((CompGZIP : Bytes) = CompNone) := by decide
  by_cases hc : compress && (probe B).2
  · have hcomp : (fileHeaderOf H probe B compress).Compression = CompGZIP := by
      simp [fileHeaderOf, hc]
    by_cases hb : B.length > 1048576
    · simp [hcomp, hne, hc, hb, GZ.gunzip_pgzip]
    · simp [hcomp, hne, hc, hb, GZ.gunzip_gzip]
  · have hcomp : (fileHeaderOf H probe B compress).Compression = CompNone := by
      simp [fileHeaderOf, hc]
    simp [hcomp, hc]

theorem seal_open_roundtrip_witness :
    ∃ hdr : Header,
      NaClDecrypt toySB toyGZ
          (FileNaClEncrypt toySB toyGZ toyHash toyProbe [104, 105] true [7]
            (List.replicate 24 0)) [7] = .ok (hdr, [104, 105])
      ∧ hdr.Size = ([104, 105] : Bytes).length
      ∧ hdr.Digest = toyHash.sha256 [104, 105] :=
  seal_open_roundtrip toySB toyGZ toyHash toyProbe [104, 105] [7]
    (List.replicate 24 0) true (by decide) (by decide) (by decide)

/-- C6: opening an envelope sealed under `key` with any different key
    fails the secretbox authenticator and returns the DecryptFailed error
    ("could not decrypt body"); it never succeeds and never returns
    plaintext. -/
theorem wrong_key_decrypt_fails (SB : SecretBox) (GZ : GzipCodec)
    (H : HashModel) (probe : Bytes → Bytes × Bool) (B key key' nonce : Bytes)
    (compress : Bool) (hn : nonce.length = NonceSize) (hk : key ≠ key') :
    NaClDecrypt SB GZ (FileNaClEncrypt SB GZ H probe B compress key nonce)
      key' = .fail .couldNotDecryptBody := by
  have hn24 : nonce.length = 24 := by simpa [NonceSize] using hn
  simp only [FileNaClEncrypt, NaClDecrypt]
  have hlen : ∀ t : Bytes, ¬ ((nonce ++ t).length < NonceSize) := by
    intro t
    simp [List.length_append, hn24, NonceSize]
  rw [if_neg (hlen _)]
  have htake : ∀ t : Bytes, (nonce ++ t).take NonceSize = nonce :=
    fun t => List.take_left' (by simpa [NonceSize] using hn)
  have hdrop : ∀ t : Bytes, (nonce ++ t).drop NonceSize = t :=
    fun t => List.drop_left' (by simpa [NonceSize] using hn)
  simp only [htake, hdrop, SB.open_wrong_key key key' nonce _ hk]

theorem wrong_key_decrypt_fails_witness :
    NaClDecrypt toySB toyGZ
        (FileNaClEncrypt toySB toyGZ toyHash toyProbe [104, 105] false [7]
          (List.replicate 24 0)) [8] = .fail .couldNotDecryptBody :=
  wrong_key_decrypt_fails toySB toyGZ toyHash toyProbe [104, 105] [7] [8]
    (List.replicate 24 0) false (by decide) (by decide)

/-- C9: an envelope blob shorter than the 24-byte nonce makes NaClDecrypt
    panic on `body[:NonceSize]`, and a key-bundle blob shorter than the
    56-byte salt-plus-nonce area makes KeysDecrypt panic on its slicing;
    neither short input is reported as a DecryptFailed/BadPassword error. -/
theorem short_input_panics (SB : SecretBox) (GZ : GzipCodec)
    (scrypt : ScryptFn) :
    (∀ body key : Bytes, body.length < 24 →
      NaClDecrypt SB GZ body key = .panicked)
    ∧ (∀ blob password : Bytes, ∀ N r p : Nat, blob.length < 56 →
      KeysDecrypt SB scrypt password N r p blob = .panicked) := by
  constructor
  · intro body key h
    simp only [NaClDecrypt, NonceSize]
    rw [if_pos h]
  · intro blob password N r p h
    simp only [KeysDecrypt, KeySize, NonceSize]
    rw [if_pos (by omega)]

theorem short_input_panics_witness :
    NaClDecrypt toySB toyGZ [1, 2, 3] [0] = .panicked
    ∧ KeysDecrypt toySB toyScrypt [9] 32768 16 2 (List.replicate 55 0)
        = .panicked :=
  ⟨(short_input_panics toySB toyGZ toyScrypt).1 [1, 2, 3] [0] (by decide),
   (short_input_panics toySB toyGZ toyScrypt).2 (List.replicate 55 0) [9]
     32768 16 2 (by decide)⟩

/-- C7: unwrapping the blob produced by wrapping a key bundle under a
    password returns the identical bundle; the blob is laid out as
    salt(32) ++ nonce(24) ++ seal(k_wrap, nonce, bundle) with
    k_wrap = scrypt(password, salt, 32768, 16, 2, 32) as at the repository
    call sites; and unwrapping with a different password whose derived wrap
    key differs (scrypt collision-freedom made explicit) fails with the
    BadPassword error ("could not decrypt"). -/
theorem keys_wrap_roundtrip (SB : SecretBox) (scrypt : ScryptFn) (k : Keys)
    (password salt nonce : Bytes) (hwf : KeysWF k)
    (hsalt : salt.length = KeySize) (hnonce : nonce.length = NonceSize) :
    KeysDecrypt SB scrypt password 32768 16 2
        (KeysEncrypt SB scrypt k password 32768 16 2 salt nonce) = .ok k
    ∧ KeysEncrypt SB scrypt k password 32768 16 2 salt nonce
        = salt ++ nonce ++ SB.sbSeal
            (copyFixed KeySize (scrypt password salt 32768 16 2 KeySize))
            nonce (encKeys k)
    ∧ ∀ password' : Bytes, password' ≠ password →
        copyFixed KeySize (scrypt password salt 32768 16 2 KeySize)
          ≠ copyFixed KeySize (scrypt password' salt 32768 16 2 KeySize) →
        KeysDecrypt SB scrypt password' 32768 16 2
          (KeysEncrypt SB scrypt k password 32768 16 2 salt nonce)
          = .fail .couldNotDecrypt := by
  have hs32 : salt.length = 32 := by simpa [KeySize] using hsalt
  have hn24 : nonce.length = 24 := by simpa [NonceSize] using hnonce
  have hblob : KeysEncrypt SB scrypt k password 32768 16 2 salt nonce
      = salt ++ (nonce ++ SB.sbSeal
          (copyFixed KeySize (scrypt password salt 32768 16 2 KeySize))
          nonce (encKeys k)) := by
    simp [KeysEncrypt]
  have hlen : ¬ ((salt ++ (nonce ++ SB.sbSeal
      (copyFixed KeySize (scrypt password salt 32768 16 2 KeySize))
      nonce (encKeys k))).length < KeySize + NonceSize) := by
    simp [List.length_append, hs32, hn24, KeySize, NonceSize]
    omega
  have htake : (salt ++ (nonce ++ SB.sbSeal
      (copyFixed KeySize (scrypt password salt 32768 16 2 KeySize))
      nonce (encKeys k))).take KeySize = salt :=
    List.take_left' (by simpa [KeySize] using hs32)
  have hdrop : (salt ++ (nonce ++ SB.sbSeal
      (copyFixed KeySize (scrypt password salt 32768 16 2 KeySize))
      nonce (encKeys k))).drop KeySize = nonce ++ SB.sbSeal
      (copyFixed KeySize (scrypt password salt 32768 16 2 KeySize))
      nonce (encKeys k) :=
    List.drop_left' (by simpa [KeySize] using hs32)
  have htake2 : (nonce ++ SB.sbSeal
      (copyFixed KeySize (scrypt password salt 32768 16 2 KeySize))
      nonce (encKeys k)).take NonceSize = nonce :=
    List.take_left' (by simpa [NonceSize] using hn24)
  have hdrop2 : (salt ++ (nonce ++ SB.sbSeal
      (copyFixed KeySize (scrypt password salt 32768 16 2 KeySize))
      nonce (encKeys k))).drop (KeySize + NonceSize) = SB.sbSeal
      (copyFixed KeySize (scrypt password salt 32768 16 2 KeySize))
      nonce (encKeys k) := by
    rw [← List.append_assoc]
    exact List.drop_left' (by simp [List.length_append, hs32, hn24,
      KeySize, NonceSize])
  refine ⟨?_, by simpa using hblob, ?_⟩
  · rw [hblob]
    simp only [KeysDecrypt, if_neg hlen, htake, hdrop, htake2, hdrop2,
      SB.open_seal, decKeys_enc k hwf]
  · intro password' hne hkey
    rw [hblob]
    simp only [KeysDecrypt, if_neg hlen, htake, hdrop, htake2, hdrop2,
      SB.open_wrong_key _ _ _ _ hkey]

theorem keys_wrap_roundtrip_witness :
    KeysDecrypt toySB toyScrypt [3] 32768 16 2
        (KeysEncrypt toySB toyScrypt
          ⟨List.replicate 32 2, List.replicate 32 3, List.replicate 32 4⟩
          [3] 32768 16 2 (List.replicate 32 0) (List.replicate 24 0))
      = .ok ⟨List.replicate 32 2, List.replicate 32 3, List.replicate 32 4⟩
    ∧ KeysEncrypt toySB toyScrypt
        ⟨List.replicate 32 2, List.replicate 32 3, List.replicate 32 4⟩
        [3] 32768 16 2 (List.replicate 32 0) (List.replicate 24 0)
      = List.replicate 32 0 ++ List.replicate 24 0 ++ toySB.sbSeal
          (copyFixed KeySize
            (toyScrypt [3] (List.replicate 32 0) 32768 16 2 KeySize))
          (List.replicate 24 0)
          (encKeys ⟨List.replicate 32 2, List.replicate 32 3,
            List.replicate 32 4⟩)
    ∧ ∀ password' : Bytes, password' ≠ [3] →
        copyFixed KeySize (toyScrypt [3] (List.replicate 32 0) 32768 16 2
            KeySize)
          ≠ copyFixed KeySize (toyScrypt password' (List.replicate 32 0)
            32768 16 2 KeySize) →
        KeysDecrypt toySB toyScrypt password' 32768 16 2
          (KeysEncrypt toySB toyScrypt
            ⟨List.replicate 32 2, List.replicate 32 3, List.replicate 32 4⟩
            [3] 32768 16 2 (List.replicate 32 0) (List.replicate 24 0))
          = .fail .couldNotDecrypt :=
  keys_wrap_roundtrip toySB toyScrypt
    ⟨List.replicate 32 2, List.replicate 32 3, List.replicate 32 4⟩
    [3] (List.replicate 32 0) (List.replicate 24 0)
    ⟨by decide, by decide, by decide⟩ (by decide) (by decide)

/-! ## Manifest codec lemmas -/

theorem decDir_enc (TC : TimeCodec T) (d : MDir T) (r : Bytes)
    (hwf : EntryWF TC (.dir d)) :
    decDir TC (encDir TC d ++ r) = some (d, r) := by
  obtain ⟨h1, h2, h3, h4, h5, h6, h7⟩ := hwf
  simp only [decDir, encDir, List.append_assoc]
  rw [decString_enc _ _ h1]
  simp only [Option.bind_eq_bind, Option.some_bind]
  rw [decUint32_enc _ _ h2]
  simp only [Option.some_bind]
  rw [decInt32_enc _ _ h3 h4]
  simp only [Option.some_bind]
  rw [decInt32_enc _ _ h5 h6]
  simp only [Option.some_bind]
  rw [decString_enc _ _ h7]
  simp only [Option.some_bind, TC.parse_fmt]
  rfl

theorem decSymlink_enc (TC : TimeCodec T) (sl : MSymlink) (r : Bytes)
    (hwf : EntryWF TC (.syml sl)) :
    decSymlink (encSymlink sl ++ r) = some (sl, r) := by
  obtain ⟨h1, h2⟩ := hwf
  simp only [decSymlink, encSymlink, List.append_assoc]
  rw [decString_enc _ _ h1]
  simp only [Option.bind_eq_bind, Option.some_bind]
  rw [decString_enc _ _ h2]
  simp only [Option.some_bind]
  rfl

theorem decFile_enc (TC : TimeCodec T) (f : MFile T) (r : Bytes)
    (hwf : EntryWF TC (.file f)) :
    decFile TC (encFile TC f ++ r) = some (f, r) := by
  obtain ⟨h1, h2, h3, h4, h5, h6, h7, h8, h9, h10, h11⟩ := hwf
  simp only [decFile, encFile, List.append_assoc]
  rw [decString_enc _ _ h1]
  simp only [Option.bind_eq_bind, Option.some_bind]
  rw [decUint32_enc _ _ h2]
  simp only [Option.some_bind]
  rw [decInt32_enc _ _ h3 h4]
  simp only [Option.some_bind]
  rw [decInt32_enc _ _ h5 h6]
  simp only [Option.some_bind]
  rw [decHyper_enc _ _ h7 h8]
  simp only [Option.some_bind]
  rw [decString_enc _ _ h9]
  simp only [Option.some_bind]
  rw [decString_enc _ _ h10]
  simp only [Option.some_bind]
  rw [readN_append 32 _ _ h11]
  simp only [Option.some_bind, TC.parse_fmt]
  rfl

theorem encEntry_length_four (TC : TimeCodec T) (e : Entry T) :
    4 ≤ (encEntry TC e).length := by
  cases e <;> simp [encEntry, TypeDir, TypeSymlink, TypeFile,
    List.length_append]

theorem decNext_encEntry (TC : TimeCodec T) (e : Entry T) (rest : Bytes)
    (hwf : EntryWF TC e) :
    decNext TC (encEntry TC e ++ rest) = .ok (some (e, rest)) := by
  cases e with
  | dir d =>
    simp only [encEntry, List.append_assoc, decNext]
    rw [readN_append 4 _ _ (by decide : (TypeDir : Bytes).length = 4)]
    simp [decDir_enc TC d rest hwf]
  | syml sl =>
    simp only [encEntry, List.append_assoc, decNext]
    rw [readN_append 4 _ _ (by decide : (TypeSymlink : Bytes).length = 4)]
    have h1 : ¬ ((TypeSymlink : Bytes) = TypeDir) := by decide
    simp [h1, decSymlink_enc TC sl rest hwf]
  | file f =>
    simp only [encEntry, List.append_assoc, decNext]
    rw [readN_append 4 _ _ (by decide : (TypeFile : Bytes).length = 4)]
    have h1 : ¬ ((TypeFile : Bytes) = TypeDir) := by decide
    have h2 : ¬ ((TypeFile : Bytes) = TypeSymlink) := by decide
    simp [h1, h2, decFile_enc TC f rest hwf]

theorem decEntriesFuel_enc (TC : TimeCodec T) (es : List (Entry T))
    (hwf : ∀ e ∈ es, EntryWF TC e) :
    ∀ fuel : Nat, (encEntries TC es).length < fuel →
    decEntriesFuel TC fuel (encEntries TC es) = .ok es := by
  induction es with
  | nil =>
    intro fuel hf
    cases fuel with
    | zero => omega
    | succ n =>
      simp [decEntriesFuel, decNext, encEntries, readN]
  | cons e es ih =>
    intro fuel hf
    have henc : encEntries TC (e :: es) = encEntry TC e ++ encEntries TC es := by
      simp [encEntries]
    cases fuel with
    | zero => omega
    | succ n =>
      have hl4 : 4 ≤ (encEntry TC e).length := encEntry_length_four TC e
      have hf' : (encEntry TC e).length + (encEntries TC es).length < n + 1 := by
        rw [henc] at hf
        simpa [List.length_append] using hf
      rw [henc]
      simp only [decEntriesFuel,
        decNext_encEntry TC e _ (hwf e (by simp)),
        ih (fun e' he' => hwf e' (by simp [he'])) n (by omega)]

theorem decMDHeader_enc (tag : Bytes) (ht : tag.length = 4) :
    decMDHeader (encMDHeader ⟨metadataVersion, tag⟩)
      = some (⟨metadataVersion, tag⟩, []) := by
  simp only [decMDHeader, encMDHeader]
  rw [decInt32_enc _ _ (by norm_num [metadataVersion])
    (by norm_num [metadataVersion])]
  simp only [Option.bind_eq_bind, Option.some_bind]
  rw [readN_exact 4 _ ht]
  simp only [Option.some_bind]
  rfl

theorem foldWrite_gz (TC : TimeCodec T) (es : List (Entry T)) :
    ∀ (f p : Bytes) (c : Bool),
    es.foldl (fun b e => bodyWrite b (encEntry TC e)) (MBody.gz f p c)
      = .gz f (p ++ encEntries TC es) c := by
  induction es with
  | nil => intro f p c; simp [encEntries]
  | cons e es ih =>
    intro f p c
    rw [List.foldl_cons]
    have hb : bodyWrite (MBody.gz f p c) (encEntry TC e)
        = MBody.gz f (p ++ encEntry TC e) c := rfl
    rw [hb, ih]
    simp [encEntries, List.append_assoc]

theorem foldWrite_raw (TC : TimeCodec T) (es : List (Entry T)) :
    ∀ (f p : Bytes),
    es.foldl (fun b e => bodyWrite b (encEntry TC e)) (MBody.raw f p)
      = .raw f (p ++ encEntries TC es) := by
  induction es with
  | nil => intro f p; simp [encEntries]
  | cons e es ih =>
    intro f p
    rw [List.foldl_cons]
    have hb : bodyWrite (MBody.raw f p) (encEntry TC e)
        = MBody.raw f (p ++ encEntry TC e) := rfl
    rw [hb, ih]
    simp [encEntries, List.append_assoc]

theorem encodeManifest_body (TC : TimeCodec T) (es : List (Entry T)) :
    ∀ compress : Bool,
    (encodeManifest TC es compress).body
      = if compress then .gz (encEntries TC es) [] false
        else .raw (encEntries TC es) [] := by
  intro compress
  cases compress with
  | true =>
    simp [encodeManifest, bodyInit, foldWrite_gz, bodyFlush]
  | false =>
    simp [encodeManifest, bodyInit, foldWrite_raw, bodyFlush]

instance decEntryWFtoy (e : Entry Nat) : Decidable (EntryWF toyTime e) :=
  match e with
  | .dir _ => instDecidableAnd
  | .syml _ => instDecidableAnd
  | .file _ => instDecidableAnd

/-- C3 counterexample: finalizing the manifest writer
    (MetadataEncoder.Flush) calls only the gzip writer's Flush, never its
    Close, so the gzip member footer is NOT completed — already for the
    empty entry sequence with compression enabled. -/
theorem gzip_footer_not_completed_cex :
    gzFooterComplete (encodeManifest toyTime ([] : List (Entry Nat))
      true).body = false := by
  rfl

theorem encodeManifest_mk_gz (TC : TimeCodec T) (es : List (Entry T)) :
    encodeManifest TC es true
      = ⟨encMDHeader ⟨metadataVersion, CompGZIP⟩,
         .gz (encEntries TC es) [] false⟩ := by
  simp [encodeManifest, bodyInit, foldWrite_gz, bodyFlush]

theorem encodeManifest_mk_raw (TC : TimeCodec T) (es : List (Entry T)) :
    encodeManifest TC es false
      = ⟨encMDHeader ⟨metadataVersion, CompNone⟩,
         .raw (encEntries TC es) []⟩ := by
  simp [encodeManifest, bodyInit, foldWrite_raw, bodyFlush]

theorem decodeManifest_mk_gz (TC : TimeCodec T) (f p : Bytes) (c : Bool) :
    decodeManifest TC ⟨encMDHeader ⟨metadataVersion, CompGZIP⟩, .gz f p c⟩
      = decEntriesFuel TC (f.length + 1) f := by
  simp only [decodeManifest]
  rw [decMDHeader_enc CompGZIP (by decide)]
  have hv : ¬ ((metadataVersion : Int) ≠ metadataVersion) := by simp
  have hcn : ¬ ((CompGZIP : Bytes) = CompNone) := by decide
  simp [hv, hcn]

theorem decodeManifest_mk_raw (TC : TimeCodec T) (f p : Bytes) :
    decodeManifest TC ⟨encMDHeader ⟨metadataVersion, CompNone⟩, .raw f p⟩
      = decEntriesFuel TC (f.length + 1) f := by
  simp only [decodeManifest]
  rw [decMDHeader_enc CompNone (by decide)]
  have hv : ¬ ((metadataVersion : Int) ≠ metadataVersion) := by simp
  simp [hv]

/-- C3 (amended): for every legal sequence of manifest entries and both
    compression settings, decoding the encoded-and-finalized stream yields
    exactly the original entries; finalizing drains all buffered records
    (nothing stays pending) but does not write the gzip footer (the member
    stays unclosed) — no trailing records are lost because the reader's
    IsEOF treats the resulting unexpected end of stream at a record
    boundary as a clean end of manifest. -/
theorem manifest_roundtrip (TC : TimeCodec T) (es : List (Entry T))
    (compress : Bool) (hwf : ∀ e ∈ es, EntryWF TC e) :
    decodeManifest TC (encodeManifest TC es compress) = .ok es
    ∧ (compress = true →
        (encodeManifest TC es compress).body = .gz (encEntries TC es) [] false)
    ∧ (compress = false →
        (encodeManifest TC es compress).body = .raw (encEntries TC es) []) := by
  refine ⟨?_, ?_, ?_⟩
  · cases compress with
    | true =>
      rw [encodeManifest_mk_gz, decodeManifest_mk_gz]
      exact decEntriesFuel_enc TC es hwf _ (by omega)
    | false =>
      rw [encodeManifest_mk_raw, decodeManifest_mk_raw]
      exact decEntriesFuel_enc TC es hwf _ (by omega)
  · intro hc
    subst hc
    rw [encodeManifest_mk_gz]
  · intro hc
    subst hc
    rw [encodeManifest_mk_raw]

theorem manifest_roundtrip_witness :
    decodeManifest toyTime (encodeManifest toyTime
        ([.dir ⟨[97], 493, 0, 0, 5⟩, .syml ⟨[98], [97]⟩,
          .file ⟨[99], 420, 1000, 1000, 3, 7, [116], List.replicate 32 9⟩])
        true) = .ok
        [.dir ⟨[97], 493, 0, 0, 5⟩, .syml ⟨[98], [97]⟩,
          .file ⟨[99], 420, 1000, 1000, 3, 7, [116], List.replicate 32 9⟩]
    ∧ (true = true →
        (encodeManifest toyTime
          ([.dir ⟨[97], 493, 0, 0, 5⟩, .syml ⟨[98], [97]⟩,
            .file ⟨[99], 420, 1000, 1000, 3, 7, [116],
              List.replicate 32 9⟩]) true).body
          = .gz (encEntries toyTime
              [.dir ⟨[97], 493, 0, 0, 5⟩, .syml ⟨[98], [97]⟩,
                .file ⟨[99], 420, 1000, 1000, 3, 7, [116],
                  List.replicate 32 9⟩]) [] false)
    ∧ (true = false →
        (encodeManifest toyTime
          ([.dir ⟨[97], 493, 0, 0, 5⟩, .syml ⟨[98], [97]⟩,
            .file ⟨[99], 420, 1000, 1000, 3, 7, [116],
              List.replicate 32 9⟩]) true).body
          = .raw (encEntries toyTime
              [.dir ⟨[97], 493, 0, 0, 5⟩, .syml ⟨[98], [97]⟩,
                .file ⟨[99], 420, 1000, 1000, 3, 7, [116],
                  List.replicate 32 9⟩]) []) :=
  manifest_roundtrip toyTime
    [.dir ⟨[97], 493, 0, 0, 5⟩, .syml ⟨[98], [97]⟩,
      .file ⟨[99], 420, 1000, 1000, 3, 7, [116], List.replicate 32 9⟩]
    true (by decide)

/-! ## Walk lemmas (C4, C5) -/

theorem regular_mode_bits (m : Nat) (h : m &&& ModeType = 0) :
    m &&& ModeDir = 0 ∧ m &&& ModeSymlink = 0 := by
  constructor
  · have h1 : ModeType &&& ModeDir = ModeDir := by decide
    calc m &&& ModeDir = m &&& (ModeType &&& ModeDir) := by rw [h1]
      _ = (m &&& ModeType) &&& ModeDir := (Nat.land_assoc _ _ _).symm
      _ = 0 &&& ModeDir := by rw [h]
      _ = 0 := Nat.zero_and _
  · have h1 : ModeType &&& ModeSymlink = ModeSymlink := by decide
    calc m &&& ModeSymlink = m &&& (ModeType &&& ModeSymlink) := by rw [h1]
      _ = (m &&& ModeType) &&& ModeSymlink := (Nat.land_assoc _ _ _).symm
      _ = 0 &&& ModeSymlink := by rw [h]
      _ = 0 := Nat.zero_and _

/-- C5: for a non-empty regular file whose fingerprint call returns
    HMAC-SHA256(k_dedup, file bytes), the walk writes a File entry whose
    digest is exactly that fingerprint, attempts exactly one upload under
    its lowercase-hex name, and when the store answers Conflict (409) the
    walk treats it as successful dedup: no second upload, no warning, the
    walk continues and the entry stays in the manifest. -/
theorem walk_dedup_digest (H : HashModel) (kDedup B pathB payload mime : Bytes)
    (c : Bool) (lnk : Bytes) (info : FileInfo T)
    (hreg : info.mode &&& ModeType = 0) (hsz : info.size ≠ 0) :
    walk ⟨.ok (H.hmacSHA256 kDedup B), .ok payload, .ok (mime, c), .ok lnk,
        .combined 409⟩ pathB info false
      = ⟨[.file (fileEntryOf pathB info mime (H.hmacSHA256 kDedup B))],
         [(hexEncode (H.hmacSHA256 kDedup B), payload)], false, none⟩ := by
  obtain ⟨hmd, hms⟩ := regular_mode_bits info.mode hreg
  have hd : ¬ (info.mode &&& ModeDir = ModeDir) := by rw [hmd]; decide
  have hs : ¬ (info.mode &&& ModeSymlink = ModeSymlink) := by rw [hms]; decide
  simp [walk, walkFinish, hd, hs, hreg, hsz]

theorem walk_dedup_digest_witness :
    walk ⟨.ok (toyHash.hmacSHA256 [1] [2]), .ok [9], .ok ([116], true),
        .ok [], .combined 409⟩ [97] (⟨420, 5, 0, 0, 0⟩ : FileInfo Nat) false
      = ⟨[.file (fileEntryOf [97] (⟨420, 5, 0, 0, 0⟩ : FileInfo Nat) [116]
            (toyHash.hmacSHA256 [1] [2]))],
         [(hexEncode (toyHash.hmacSHA256 [1] [2]), [9])], false, none⟩ :=
  walk_dedup_digest toyHash [1] [2] [97] [9] [116] true []
    (⟨420, 5, 0, 0, 0⟩ : FileInfo Nat) (by decide) (by decide)

/-- C4 counterexample: a regular file whose upload fails with a
    non-Conflict store error (HTTP 500) is "skipped" with a warning, but
    its complete File entry was already written to the manifest before the
    upload ran — the claim that the manifest contains no entry for such a
    file is false. -/
theorem walk_upload_error_entry_cex :
    walk ⟨.ok (List.replicate 32 1), .ok [9, 9], .ok ([116], true), .ok [],
        .combined 500⟩ [97] (⟨420, 5, 0, 0, 0⟩ : FileInfo Nat) false
      = ⟨[.file ⟨[97], 420, 0, 0, 5, 0, [116], List.replicate 32 1⟩],
         [(hexEncode (List.replicate 32 1), [9, 9])], true, none⟩ := by
  rfl

/-- C4 (amended): per-file error handling of the create walk for a
    non-empty regular file.  Fingerprinting and sealing errors occur before
    the entry is written: the file is skipped with a warning, nothing is
    uploaded, and the manifest gets no entry.  A MIME-probe failure is lost
    to variable shadowing (`mime, _, err :=` declares a fresh err): no
    entry is written but no warning is printed and the upload still runs.
    An upload failure other than Conflict (combined non-409 or a
    non-combined error) warns, but the complete File entry is already in
    the manifest.  The walk returns nil (continues) in every case. -/
theorem walk_error_handling (pathB payload mime dg lnk : Bytes) (c : Bool)
    (err : GoErr) (up : UploadRes) (info : FileInfo T)
    (hreg : info.mode &&& ModeType = 0) (hsz : info.size ≠ 0) :
    (walk ⟨.error err, .ok payload, .ok (mime, c), .ok lnk, up⟩ pathB info
        false = ⟨[], [], true, none⟩)
    ∧ (walk ⟨.ok dg, .error err, .ok (mime, c), .ok lnk, up⟩ pathB info
        false = ⟨[], [], true, none⟩)
    ∧ (walk ⟨.ok dg, .ok payload, .error err, .ok lnk, .okAsset⟩ pathB info
        false = ⟨[], [(hexEncode dg, payload)], false, none⟩)
    ∧ (∀ status : Nat, status ≠ 409 →
        walk ⟨.ok dg, .ok payload, .ok (mime, c), .ok lnk,
            .combined status⟩ pathB info false
          = ⟨[.file (fileEntryOf pathB info mime dg)],
             [(hexEncode dg, payload)], true, none⟩)
    ∧ (walk ⟨.ok dg, .ok payload, .ok (mime, c), .ok lnk, .plainErr⟩ pathB
        info false
          = ⟨[.file (fileEntryOf pathB info mime dg)],
             [(hexEncode dg, payload)], true, none⟩) := by
  obtain ⟨hmd, hms⟩ := regular_mode_bits info.mode hreg
  have hd : ¬ (info.mode &&& ModeDir = ModeDir) := by rw [hmd]; decide
  have hs : ¬ (info.mode &&& ModeSymlink = ModeSymlink) := by rw [hms]; decide
  refine ⟨?_, ?_, ?_, ?_, ?_⟩
  · simp [walk, walkFinish, hd, hs, hreg, hsz]
  · simp [walk, walkFinish, hd, hs, hreg, hsz]
  · simp [walk, walkFinish, hd, hs, hreg, hsz]
  · intro status hst
    simp [walk, walkFinish, hd, hs, hreg, hsz, hst]
  · simp [walk, walkFinish, hd, hs, hreg, hsz]

theorem walk_error_handling_witness :
    (walk ⟨.error .ioErr, .ok [9], .ok ([116], true), .ok [], .okAsset⟩
        [97] (⟨420, 5, 0, 0, 0⟩ : FileInfo Nat) false = ⟨[], [], true, none⟩)
    ∧ (walk ⟨.ok (List.replicate 32 1), .error .ioErr, .ok ([116], true),
        .ok [], .okAsset⟩ [97] (⟨420, 5, 0, 0, 0⟩ : FileInfo Nat) false
        = ⟨[], [], true, none⟩)
    ∧ (walk ⟨.ok (List.replicate 32 1), .ok [9], .error .ioErr, .ok [],
        .okAsset⟩ [97] (⟨420, 5, 0, 0, 0⟩ : FileInfo Nat) false
        = ⟨[], [(hexEncode (List.replicate 32 1), [9])], false, none⟩)
    ∧ (∀ status : Nat, status ≠ 409 →
        walk ⟨.ok (List.replicate 32 1), .ok [9], .ok ([116], true), .ok [],
            .combined status⟩ [97] (⟨420, 5, 0, 0, 0⟩ : FileInfo Nat) false
          = ⟨[.file (fileEntryOf [97] (⟨420, 5, 0, 0, 0⟩ : FileInfo Nat)
                [116] (List.replicate 32 1))],
             [(hexEncode (List.replicate 32 1), [9])], true, none⟩)
    ∧ (walk ⟨.ok (List.replicate 32 1), .ok [9], .ok ([116], true), .ok [],
        .plainErr⟩ [97] (⟨420, 5, 0, 0, 0⟩ : FileInfo Nat) false
          = ⟨[.file (fileEntryOf [97] (⟨420, 5, 0, 0, 0⟩ : FileInfo Nat)
                [116] (List.replicate 32 1))],
             [(hexEncode (List.replicate 32 1), [9])], true, none⟩) :=
  walk_error_handling [97] [9] [116] (List.replicate 32 1) [] true .ioErr
    .okAsset (⟨420, 5, 0, 0, 0⟩ : FileInfo Nat) (by decide) (by decide)

/-! ## Extract and secrets claims (C10, C2, C8) -/

/-- C10: under extract mode, a File entry takes the create-empty-file arm
    exactly when its recorded size is 0, independent of its digest; every
    other File entry — including one with an all-zero digest — goes to
    downloadPayload, whose remote lookup path for the zero digest is
    "/data/" followed by 64 zero hex characters. -/
theorem extract_size_zero_branch (SB : SecretBox) (GZ : GzipCodec)
    (store : Bytes → Option Bytes) (key : Bytes) (e : MFile T) :
    (extractFile SB GZ store key modeExtract e = .createdEmpty ↔ e.Size = 0)
    ∧ (e.Size ≠ 0 → extractFile SB GZ store key modeExtract e
        = .download (dataPathOf e.Digest)
            (downloadPayload SB GZ store key e.Digest))
    ∧ dataPathOf zeroDigest = dataDirStr ++ List.replicate 64 48 := by
  refine ⟨?_, ?_, by decide⟩
  · by_cases hz : e.Size = 0
    · simp [extractFile, hz]
    · simp [extractFile, hz]
  · intro hz
    simp [extractFile, hz]

theorem extract_size_zero_branch_witness :
    ((extractFile toySB toyGZ (fun _ => none) [7] modeExtract
        (⟨[97], 420, 0, 0, 5, (0 : Nat), [], zeroDigest⟩ : MFile Nat)
        = .createdEmpty)
      ↔ (⟨[97], 420, 0, 0, 5, (0 : Nat), [], zeroDigest⟩ : MFile Nat).Size = 0)
    ∧ ((⟨[97], 420, 0, 0, 5, (0 : Nat), [], zeroDigest⟩ : MFile Nat).Size ≠ 0 →
        extractFile toySB toyGZ (fun _ => none) [7] modeExtract
          (⟨[97], 420, 0, 0, 5, (0 : Nat), [], zeroDigest⟩ : MFile Nat)
        = .download (dataPathOf zeroDigest)
            (downloadPayload toySB toyGZ (fun _ => none) [7] zeroDigest))
    ∧ dataPathOf zeroDigest = dataDirStr ++ List.replicate 64 48 :=
  extract_size_zero_branch toySB toyGZ (fun _ => none) [7]
    (⟨[97], 420, 0, 0, 5, (0 : Nat), [], zeroDigest⟩ : MFile Nat)

/-- C2 counterexample: an envelope whose header digest (32 one-bytes) does
    not match SHA-256 of its body decrypts fine, and downloadPayload
    writes the body with no CorruptPayload error — the header, and with it
    the digest and size, is discarded. -/
theorem no_digest_check_cex :
    NaClDecrypt toySB toyGZ
        (List.replicate 24 0 ++ toySB.sbSeal [7] (List.replicate 24 0)
          (encHeader ⟨1, CompNone, 1, List.replicate 32 1, []⟩ ++ [5])) [7]
      = .ok (⟨1, CompNone, 1, List.replicate 32 1, []⟩, [5])
    ∧ toyHash.sha256 [5]
        ≠ (⟨1, CompNone, 1, List.replicate 32 1, []⟩ : Header).Digest
    ∧ downloadPayload toySB toyGZ
        (fun _ => some (List.replicate 24 0 ++ toySB.sbSeal [7]
          (List.replicate 24 0)
          (encHeader ⟨1, CompNone, 1, List.replicate 32 1, []⟩ ++ [5])))
        [7] (List.replicate 32 1)
      = .ok [5] := by
  refine ⟨by decide, by decide, by decide⟩

/-- C2 (amended): the extraction download path performs no
    digest or size verification after authenticated decryption: whenever
    the store lookup and NaClDecrypt succeed, downloadPayload writes the
    decrypted (decompressed) payload and reports success, with no
    comparison against the envelope header's digest or size fields. -/
theorem downloadPayload_no_digest_verification (SB : SecretBox)
    (GZ : GzipCodec) (store : Bytes → Option Bytes)
    (key id body payload : Bytes) (h : Header)
    (hstore : store (dataPathOf id) = some body)
    (hdec : NaClDecrypt SB GZ body key = .ok (h, payload)) :
    downloadPayload SB GZ store key id = .ok payload := by
  simp [downloadPayload, hstore, hdec]

theorem downloadPayload_no_digest_verification_witness :
    downloadPayload toySB toyGZ
        (fun _ => some (List.replicate 24 0 ++ toySB.sbSeal [7]
          (List.replicate 24 0)
          (encHeader ⟨1, CompNone, 1, List.replicate 32 1, []⟩ ++ [5])))
        [7] (List.replicate 32 1)
      = .ok [5] :=
  downloadPayload_no_digest_verification toySB toyGZ
    (fun _ => some (List.replicate 24 0 ++ toySB.sbSeal [7]
      (List.replicate 24 0)
      (encHeader ⟨1, CompNone, 1, List.replicate 32 1, []⟩ ++ [5])))
    [7] (List.replicate 32 1)
    (List.replicate 24 0 ++ toySB.sbSeal [7] (List.replicate 24 0)
      (encHeader ⟨1, CompNone, 1, List.replicate 32 1, []⟩ ++ [5]))
    [5] ⟨1, CompNone, 1, List.replicate 32 1, []⟩ rfl (by decide)

/-- C8 counterexample: with no local password file, a remote bundle that
    opens fine under the prompted password but differs from the local keys
    is reported as "invalid password" and the prompt loop retries (one
    invalid-password line printed, outcome not a KeyMismatch abort). -/
theorem mismatch_retried_cex :
    downloadSecrets toySB toyScrypt
        ⟨List.replicate 32 2, List.replicate 32 3, List.replicate 32 4⟩
        (KeysEncrypt toySB toyScrypt
          ⟨List.replicate 32 9, List.replicate 32 3, List.replicate 32 4⟩
          [3] 32768 16 2 (List.replicate 32 0) (List.replicate 24 0))
        none [[3]]
      = (.awaitingPrompt, 1)
    ∧ KeysDecrypt toySB toyScrypt [3] 32768 16 2
        (KeysEncrypt toySB toyScrypt
          ⟨List.replicate 32 9, List.replicate 32 3, List.replicate 32 4⟩
          [3] 32768 16 2 (List.replicate 32 0) (List.replicate 24 0))
      = .ok ⟨List.replicate 32 9, List.replicate 32 3, List.replicate 32 4⟩
    ∧ (⟨List.replicate 32 9, List.replicate 32 3, List.replicate 32 4⟩ : Keys)
        ≠ ⟨List.replicate 32 2, List.replicate 32 3, List.replicate 32 4⟩ := by
  refine ⟨by decide, by decide, by decide⟩

/-- C8 (amended): when the remote bundle opens successfully but differs
    from the local bundle, the behavior depends on the password source.
    Via the local password file the mismatch is returned and aborts the
    operation (the "remote secrets not identical" error).  After an
    interactive prompt the same mismatch is printed as "invalid password"
    and the prompt loop simply retries: it is not fatal and the password is
    not persisted. -/
theorem secrets_mismatch_behavior (SB : SecretBox) (scrypt : ScryptFn)
    (localKeys kk : Keys) (blob p : Bytes)
    (hdec : KeysDecrypt SB scrypt p 32768 16 2 blob = .ok kk)
    (hne : ¬ (kk.MD = localKeys.MD ∧ kk.Data = localKeys.Data
        ∧ kk.Dedup = localKeys.Dedup)) :
    downloadSecrets SB scrypt localKeys blob (some p) []
      = (.fatal .notIdentical, 0)
    ∧ ∀ prompts : List Bytes,
        downloadSecrets SB scrypt localKeys blob none (p :: prompts)
          = downloadSecretsLoop SB scrypt localKeys blob none prompts 1 := by
  have hv : verifySecrets SB scrypt localKeys p blob = .fail .notIdentical := by
    simp [verifySecrets, hdec, hne]
  constructor
  · simp [downloadSecrets, downloadSecretsLoop, hv]
  · intro prompts
    simp [downloadSecrets, downloadSecretsLoop, hv]

theorem secrets_mismatch_behavior_witness :
    downloadSecrets toySB toyScrypt
        ⟨List.replicate 32 2, List.replicate 32 3, List.replicate 32 4⟩
        (KeysEncrypt toySB toyScrypt
          ⟨List.replicate 32 9, List.replicate 32 3, List.replicate 32 4⟩
          [3] 32768 16 2 (List.replicate 32 0) (List.replicate 24 0))
        (some [3]) []
      = (.fatal .notIdentical, 0)
    ∧ ∀ prompts : List Bytes,
        downloadSecrets toySB toyScrypt
          ⟨List.replicate 32 2, List.replicate 32 3, List.replicate 32 4⟩
          (KeysEncrypt toySB toyScrypt
            ⟨List.replicate 32 9, List.replicate 32 3, List.replicate 32 4⟩
            [3] 32768 16 2 (List.replicate 32 0) (List.replicate 24 0))
          none ([3] :: prompts)
        = downloadSecretsLoop toySB toyScrypt
            ⟨List.replicate 32 2, List.replicate 32 3, List.replicate 32 4⟩
            (KeysEncrypt toySB toyScrypt
              ⟨List.replicate 32 9, List.replicate 32 3, List.replicate 32 4⟩
              [3] 32768 16 2 (List.replicate 32 0) (List.replicate 24 0))
            none prompts 1 :=
  secrets_mismatch_behavior toySB toyScrypt
    ⟨List.replicate 32 2, List.replicate 32 3, List.replicate 32 4⟩
    ⟨List.replicate 32 9, List.replicate 32 3, List.replicate 32 4⟩
    (KeysEncrypt toySB toyScrypt
      ⟨List.replicate 32 9, List.replicate 32 3, List.replicate 32 4⟩
      [3] 32768 16 2 (List.replicate 32 0) (List.replicate 24 0))
    [3] (by decide) (by decide)

end Acdb
